import Mathlib

/-!
Verification of the `personal-nrf-utils` firmware modules against their
natural-language specification.

The development shallowly embeds three C modules:
* `src/modules/cmd_parser/cmd_parser.c` — per-byte line buffering and command
  dispatch (`cmd_parser_process`, `execute_command`, the command handlers);
* `src/modules/ble_common/ble_init.c` — connection bookkeeping and state
  machine (`connected_callback`, `disconnected_callback`,
  `ble_advertising_start`, `ble_nus_send`);
* the collaborator values from `src/modules/nrf_utils/nrf_utils.c` are
  abstracted into an environment record, since the handlers only observe
  their return values.

Bytes are modelled as `Nat` (the target is ARM EABI, where plain `char` is
unsigned, so `char c = data[i]` keeps the byte value 0..255).
-/

namespace NrfUtils

/-! ### Constants from cmd_parser.h -/

/-- CMD_MAX_LEN from `cmd_parser.h`. -/
def CMD_MAX_LEN : Nat := 128

/-- CMD_RESPONSE_MAX_LEN from `cmd_parser.h`. -/
def CMD_RESPONSE_MAX_LEN : Nat := 256

/-! ### Per-byte line buffer state machine (`cmd_parser_process` loop body)

The C state is the pair (`cmd_buffer`, `cmd_buffer_pos`); only the first
`cmd_buffer_pos` cells are ever read (dispatch NUL-terminates at
`cmd_buffer_pos`), so the state is modelled as the list of live bytes. -/

/-- One iteration of the byte loop in `cmd_parser_process`
    (`cmd_parser.c`, lines 262-292): returns the new buffer and the
    dispatched line, if this byte completed one. -/
def parserStep (buf : List Nat) (c : Nat) : List Nat × Option (List Nat) :=
  if c = 10 ∨ c = 13 then
    if 0 < buf.length then ([], some buf) else (buf, none)
  else if 32 ≤ c ∧ c ≤ 126 then
    if buf.length < CMD_MAX_LEN - 1 then (buf ++ [c], none) else (buf, none)
  else if c = 8 ∨ c = 127 then
    if 0 < buf.length then (buf.dropLast, none) else (buf, none)
  else
    (buf, none)

/-- `cmd_parser_process(conn, data, len)`: folds `parserStep` over the
    received bytes, collecting the dispatched command lines in order. -/
def cmdParserProcess (buf : List Nat) : List Nat → List Nat × List (List Nat)
  | [] => (buf, [])
  | c :: rest =>
    let s := parserStep buf c
    let r := cmdParserProcess s.1 rest
    (r.1, s.2.toList ++ r.2)

/-- Successive calls to `cmd_parser_process`, one per chunk, against the
    persistent static buffer. -/
def processChunks (buf : List Nat) : List (List Nat) → List Nat × List (List Nat)
  | [] => (buf, [])
  | chunk :: rest =>
    let s := cmdParserProcess buf chunk
    let r := processChunks s.1 rest
    (r.1, s.2 ++ r.2)

theorem cmdParserProcess_append (a : List Nat) (b : List Nat) (buf : List Nat) :
    cmdParserProcess buf (a ++ b)
      = ((cmdParserProcess (cmdParserProcess buf a).1 b).1,
         (cmdParserProcess buf a).2 ++ (cmdParserProcess (cmdParserProcess buf a).1 b).2) := by
  induction a generalizing buf with
  | nil => simp [cmdParserProcess]
  | cons c rest ih =>
    simp only [List.cons_append, cmdParserProcess, List.append_eq]
    rw [ih]
    simp [List.append_assoc]

theorem processChunks_eq_join (chunks : List (List Nat)) (buf : List Nat) :
    processChunks buf chunks = cmdParserProcess buf chunks.flatten := by
  induction chunks generalizing buf with
  | nil => simp [processChunks, cmdParserProcess]
  | cons chunk rest ih =>
    rw [List.flatten_cons, cmdParserProcess_append]
    simp only [processChunks, ih]

theorem cmdParserProcess_printable (pb : List Nat) (buf : List Nat)
    (h : ∀ b ∈ pb, 32 ≤ b ∧ b ≤ 126) :
    cmdParserProcess buf pb = (buf ++ pb.take (CMD_MAX_LEN - 1 - buf.length), []) := by
  induction pb generalizing buf with
  | nil => simp [cmdParserProcess]
  | cons c rest ih =>
    have hc := h c (by simp)
    have hrest : ∀ b ∈ rest, 32 ≤ b ∧ b ≤ 126 := fun b hb => h b (List.mem_cons_of_mem _ hb)
    have hstep : parserStep buf c
        = if buf.length < CMD_MAX_LEN - 1 then (buf ++ [c], none) else (buf, none) := by
      rw [parserStep, if_neg (by omega), if_pos hc]
    rw [cmdParserProcess]
    by_cases hlen : buf.length < CMD_MAX_LEN - 1
    · rw [hstep, if_pos hlen]
      simp only [ih _ hrest, Option.toList_none, List.nil_append]
      have htake : (c :: rest).take (CMD_MAX_LEN - 1 - buf.length)
          = c :: rest.take (CMD_MAX_LEN - 1 - (buf ++ [c]).length) := by
        have : CMD_MAX_LEN - 1 - buf.length = (CMD_MAX_LEN - 1 - (buf ++ [c]).length) + 1 := by
          simp only [List.length_append, List.length_cons, List.length_nil]
          simp only [CMD_MAX_LEN] at hlen ⊢
          omega
        rw [this, List.take_succ_cons]
      rw [htake]
      simp [List.append_assoc]
    · rw [hstep, if_neg hlen]
      simp only [ih _ hrest, Option.toList_none, List.nil_append]
      have : CMD_MAX_LEN - 1 - buf.length = 0 := by
        simp only [CMD_MAX_LEN] at hlen ⊢; omega
      simp [this]

theorem parserStep_length_le (buf : List Nat) (c : Nat)
    (h : buf.length ≤ CMD_MAX_LEN - 1) :
    (parserStep buf c).1.length ≤ CMD_MAX_LEN - 1 := by
  rw [parserStep]
  split
  · split <;> simp_all
  · split
    · split
      · simp only [List.length_append, List.length_cons, List.length_nil]
        simp only [CMD_MAX_LEN] at *; omega
      · exact h
    · split
      · split
        · calc buf.dropLast.length ≤ buf.length := by
                rw [List.length_dropLast]; omega
             _ ≤ _ := h
        · exact h
      · exact h

/-! ### printf-style decimal formatting

`snprintf` renders `%u`/`%d` as plain decimal; the fuel-based recursion keeps
the definitions kernel-computable. -/

/-- Character for one decimal digit. -/
def digitChar (n : Nat) : Char := Char.ofNat (48 + n)

/-- Decimal digits, most significant first; `fuel` bounds the recursion depth
    (any `fuel ≥ 1` that is at least the digit count gives the full answer). -/
def natDecAux : Nat → Nat → List Char
  | 0, _ => []
  | fuel + 1, n =>
    if n < 10 then [digitChar n]
    else natDecAux fuel (n / 10) ++ [digitChar (n % 10)]

/-- printf `%u` on a natural number. -/
def decimalNat (n : Nat) : List Char := natDecAux (n + 1) n

/-- printf `%d` on an integer. -/
def decimalInt (i : Int) : List Char :=
  if i < 0 then '-' :: decimalNat i.natAbs else decimalNat i.toNat

/-- printf `%03u`: zero-padded to width 3. -/
def pad3 (n : Nat) : List Char :=
  if n < 10 then '0' :: '0' :: decimalNat n
  else if n < 100 then '0' :: decimalNat n
  else decimalNat n

theorem natDecAux_length_le (fuel : Nat) : ∀ n k : Nat, n < 10 ^ k → 0 < k →
    (natDecAux fuel n).length ≤ k := by
  induction fuel with
  | zero => intro n k _ _; simp [natDecAux]
  | succ fuel ih =>
    intro n k hn hk
    rw [natDecAux]
    by_cases h10 : n < 10
    · simpa [h10] using hk
    · have hk2 : 2 ≤ k := by
        by_contra hlt
        have : k = 1 := by omega
        subst this
        simp at hn
        omega
      have hdiv : n / 10 < 10 ^ (k - 1) := by
        rw [Nat.div_lt_iff_lt_mul (by norm_num)]
        calc n < 10 ^ k := hn
          _ = 10 ^ (k - 1) * 10 := by
              rw [← pow_succ]
              congr 1
              omega
      have := ih (n / 10) (k - 1) hdiv (by omega)
      simp only [if_neg h10, List.length_append, List.length_cons, List.length_nil]
      omega

theorem decimalNat_length_le (n k : Nat) (hn : n < 10 ^ k) (hk : 0 < k) :
    (decimalNat n).length ≤ k :=
  natDecAux_length_le _ n k hn hk

/-! ### snprintf truncation model -/

/-- snprintf(buf, size, ...): at most `size - 1` characters are stored. -/
def snprintfStr (size : Nat) (s : List Char) : List Char := s.take (size - 1)

/-- snprintf(buf + pos, size - pos, ...) in an accumulating sequence: the
    state pair is (pos, text stored so far); `pos` advances by the full
    length because snprintf returns the untruncated length. -/
def snprintfCat (size : Nat) (st : Nat × List Char) (s : List Char) : Nat × List Char :=
  (st.1 + s.length, st.2 ++ s.take (size - st.1 - 1))

theorem snprintfStr_eq_self (size : Nat) (s : List Char) (h : s.length ≤ size - 1) :
    snprintfStr size s = s :=
  List.take_of_length_le h

/-! ### Collaborator environment

The command handlers only observe return values of the `nrf_utils` and
`ble_init` query functions; those values form the environment of a call. -/

/-- struct nrf_battery_status. -/
structure BatteryStatus where
  voltage_mv : Nat
  percentage : Nat
  is_present : Bool
  is_charging : Bool
deriving DecidableEq, Repr

/-- Collaborator values observed during one command execution. -/
structure Env where
  /-- result of nrf_get_temperature_celsius() -/
  temperature : Int
  /-- result of nrf_get_battery_status() -/
  batteryRet : Int
  /-- battery struct contents when batteryRet = 0 -/
  battery : BatteryStatus
  /-- result of nrf_get_uptime_ms() (uint32_t) -/
  uptime_ms : Nat
  /-- result of ble_get_connection_count() -/
  conn_count : Nat
  /-- CONFIG_BOARD -/
  board_name : List Char
  /-- CONFIG_SOC -/
  soc_name : List Char
  /-- result of nrf_get_free_heap_bytes() -/
  free_heap : Nat
deriving DecidableEq, Repr

/-- Side effect a handler performs besides writing its response. -/
inductive SysEffect
  | noEffect
  | ledSet (b : Bool)
  | ledToggle
  | reboot
deriving DecidableEq, Repr

/-- Result of one handler / of execute_command: the text written into
    `response`, the int return value, and the hardware side effect. -/
structure HandlerOut where
  response : List Char
  ret : Int
  eff : SysEffect
deriving DecidableEq, Repr

/-! ### Command handlers (cmd_parser.c lines 59-216) -/

/-- Names and help strings of the static command table. -/
def commandInfo : List (List Char × List Char) :=
  [("help".data, "Show available commands".data),
   ("status".data, "Show system status".data),
   ("battery".data, "Show battery status".data),
   ("temp".data, "Show temperature".data),
   ("info".data, "Show system information".data),
   ("uptime".data, "Show system uptime".data),
   ("reset".data, "Reset the system".data),
   ("led".data, "Control LED (on|off|toggle)".data),
   ("echo".data, "Echo back the arguments".data)]

/-- cmd_help. The C loop guard `i < NUM_COMMANDS && pos < response_size - 50`
    is a break; since pos never decreases, a fold with the same guard on each
    entry is equivalent. -/
def cmd_help (_env : Env) (_args : Option (List Char)) (size : Nat) : HandlerOut :=
  let st0 := snprintfCat size (0, []) "Available commands:\n".data
  let st1 := commandInfo.foldl
    (fun st e =>
      if st.1 < size - 50 then
        snprintfCat size st ("  ".data ++ e.1 ++ " - ".data ++ e.2 ++ "\n".data)
      else st)
    st0
  let st2 := snprintfCat size st1 "\nType 'command help' for usage\n".data
  ⟨st2.2, 0, .noEffect⟩

/-- cmd_status. -/
def cmd_status (env : Env) (_args : Option (List Char)) (size : Nat) : HandlerOut :=
  let st0 := snprintfCat size (0, []) "=== System Status ===\n".data
  let st1 := snprintfCat size st0
    ("Uptime: ".data ++ decimalNat (env.uptime_ms / 1000) ++ ".".data
      ++ pad3 (env.uptime_ms % 1000) ++ " seconds\n".data)
  let st2 := snprintfCat size st1
    ("BLE connections: ".data ++ decimalNat env.conn_count ++ "\n".data)
  let st3 :=
    if env.batteryRet = 0 then
      snprintfCat size st2
        ("Battery: ".data ++ decimalNat env.battery.percentage ++ "% (".data
          ++ decimalNat env.battery.voltage_mv ++ " mV)\n".data)
    else st2
  let st4 :=
    if 0 ≤ env.temperature then
      snprintfCat size st3
        ("Temperature: ".data ++ decimalInt env.temperature ++ "°C\n".data)
    else st3
  ⟨st4.2, 0, .noEffect⟩

/-- cmd_battery. -/
def cmd_battery (env : Env) (_args : Option (List Char)) (size : Nat) : HandlerOut :=
  if env.batteryRet < 0 then
    ⟨snprintfStr size
      ("Battery status unavailable (err ".data ++ decimalInt env.batteryRet ++ ")\n".data),
     env.batteryRet, .noEffect⟩
  else
    ⟨snprintfStr size
      ("Battery Status:\n  Voltage: ".data ++ decimalNat env.battery.voltage_mv
        ++ " mV\n  Percentage: ".data ++ decimalNat env.battery.percentage
        ++ "%\n  Present: ".data ++ (if env.battery.is_present then "Yes".data else "No".data)
        ++ "\n  Charging: ".data ++ (if env.battery.is_charging then "Yes".data else "No".data)
        ++ "\n".data),
     0, .noEffect⟩

/-- cmd_temp (cmd_parser.c lines 123-134): note the failure test is
    `temp < -100`, not `temp < 0`. -/
def cmd_temp (env : Env) (_args : Option (List Char)) (size : Nat) : HandlerOut :=
  if env.temperature < -100 then
    ⟨snprintfStr size
      ("Temperature unavailable (err ".data ++ decimalInt env.temperature ++ ")\n".data),
     env.temperature, .noEffect⟩
  else
    ⟨snprintfStr size
      ("Temperature: ".data ++ decimalInt env.temperature ++ "°C\n".data),
     0, .noEffect⟩

/-- Return of nrf_get_system_info for the stack pointer cmd_info passes:
    the -EINVAL branch requires a NULL pointer, so the call yields 0. -/
def nrf_get_system_info_ret : Int := 0

/-- cmd_info. -/
def cmd_info (env : Env) (_args : Option (List Char)) (size : Nat) : HandlerOut :=
  if nrf_get_system_info_ret < 0 then
    ⟨snprintfStr size
      ("System info unavailable (err ".data ++ decimalInt nrf_get_system_info_ret ++ ")\n".data),
     nrf_get_system_info_ret, .noEffect⟩
  else
    ⟨snprintfStr size
      ("System Information:\n  Board: ".data ++ env.board_name
        ++ "\n  SoC: ".data ++ env.soc_name
        ++ "\n  Uptime: ".data ++ decimalNat env.uptime_ms
        ++ " ms\n  Free Heap: ".data ++ decimalNat env.free_heap ++ " bytes\n".data),
     0, .noEffect⟩

/-- cmd_uptime. -/
def cmd_uptime (env : Env) (_args : Option (List Char)) (size : Nat) : HandlerOut :=
  let seconds := env.uptime_ms / 1000
  let minutes := seconds / 60
  let hours := minutes / 60
  ⟨snprintfStr size
    ("Uptime: ".data ++ decimalNat hours ++ " hours, ".data ++ decimalNat (minutes % 60)
      ++ " minutes, ".data ++ decimalNat (seconds % 60) ++ " seconds\n".data),
   0, .noEffect⟩

/-- cmd_reset: writes the acknowledgement, then sleeps 100 ms and reboots. -/
def cmd_reset (_env : Env) (_args : Option (List Char)) (size : Nat) : HandlerOut :=
  ⟨snprintfStr size "Resetting system in 2 seconds...\n".data, 0, .reboot⟩

/-- cmd_led (cmd_parser.c lines 183-205). The C tests are
    `strncmp(args, "on", 2)`, `strncmp(args, "off", 3)`,
    `strncmp(args, "toggle", 6)`; `strncmp(a, lit, |lit|) == 0` is exactly
    `a.take |lit| = lit` because comparison stops at the NUL of `a`. -/
def cmd_led (_env : Env) (args : Option (List Char)) (size : Nat) : HandlerOut :=
  match args with
  | none => ⟨snprintfStr size "Usage: led <on|off|toggle>\n".data, -22, .noEffect⟩
  | some a =>
    if a.length = 0 then
      ⟨snprintfStr size "Usage: led <on|off|toggle>\n".data, -22, .noEffect⟩
    else if a.take 2 = "on".data then
      ⟨snprintfStr size "LED turned on\n".data, 0, .ledSet true⟩
    else if a.take 3 = "off".data then
      ⟨snprintfStr size "LED turned off\n".data, 0, .ledSet false⟩
    else if a.take 6 = "toggle".data then
      ⟨snprintfStr size "LED toggled\n".data, 0, .ledToggle⟩
    else
      ⟨snprintfStr size "Invalid LED command. Use: on, off, or toggle\n".data, -22, .noEffect⟩

/-- cmd_echo. -/
def cmd_echo (_env : Env) (args : Option (List Char)) (size : Nat) : HandlerOut :=
  match args with
  | none => ⟨snprintfStr size "Echo: (no arguments)\n".data, 0, .noEffect⟩
  | some a =>
    if a.length = 0 then
      ⟨snprintfStr size "Echo: (no arguments)\n".data, 0, .noEffect⟩
    else
      ⟨snprintfStr size ("Echo: ".data ++ a ++ "\n".data), 0, .noEffect⟩

/-! ### execute_command (cmd_parser.c lines 218-255) -/

/-- Delimiter set `" \t"` of the strtok calls. -/
def isCmdDelim (c : Char) : Bool := c = ' ' || c = '\t'

/-- `strtok(cmd_copy, " \t")`: skip leading delimiters; if anything remains,
    the token is the maximal delimiter-free prefix, and the scan position is
    left on the character that ended the token. -/
def strtokFirst (l : List Char) : Option (List Char × List Char) :=
  let r := l.dropWhile isCmdDelim
  if r.isEmpty then none
  else some (r.takeWhile (fun c => !isCmdDelim c), r.dropWhile (fun c => !isCmdDelim c))

/-- `strtok(NULL, "")` after the first call: the first call overwrote the
    single delimiter ending the token (if any) with NUL and saved the position
    one past it; with an empty delimiter set, the rest of the line (however it
    begins) is returned whole, or NULL at end of string. -/
def strtokRest (after : List Char) : Option (List Char) :=
  match after with
  | [] => none
  | _ :: rest => if rest.isEmpty then none else some rest

/-- execute_command: parse `cmd_name`/`args`, then scan the static table with
    strcmp; the names are distinct, so the first-match scan is this if-chain
    in table order. An all-delimiter line takes the `!cmd_name` early return
    (the C leaves `response` unwritten there; modelled as the empty text).
    The k_malloc of `cmd_copy` is assumed to succeed. -/
def execute_command (env : Env) (line : List Char) (size : Nat) : HandlerOut :=
  match strtokFirst line with
  | none => ⟨[], 0, .noEffect⟩
  | some (tok, after) =>
    let args := strtokRest after
    if tok = "help".data then cmd_help env args size
    else if tok = "status".data then cmd_status env args size
    else if tok = "battery".data then cmd_battery env args size
    else if tok = "temp".data then cmd_temp env args size
    else if tok = "info".data then cmd_info env args size
    else if tok = "uptime".data then cmd_uptime env args size
    else if tok = "reset".data then cmd_reset env args size
    else if tok = "led".data then cmd_led env args size
    else if tok = "echo".data then cmd_echo env args size
    else
      ⟨snprintfStr size
        ("Unknown command: ".data ++ tok ++ "\nType 'help' for available commands\n".data),
       -2, .noEffect⟩

/-- Bytes of a dispatched line, reinterpreted as characters (the buffer only
    ever stores printable ASCII, so the reinterpretation is exact). -/
def bytesToChars (l : List Nat) : List Char := l.map Char.ofNat

/-- Responses produced for a list of dispatched lines, in dispatch order. -/
def dispatchedResponses (env : Env) (lines : List (List Nat)) : List (List Char) :=
  lines.map (fun l => (execute_command env (bytesToChars l) CMD_RESPONSE_MAX_LEN).response)

/-- Fixed sample environment for concrete evaluations. -/
def env0 : Env :=
  { temperature := 25, batteryRet := 0,
    battery := ⟨3700, 58, true, false⟩,
    uptime_ms := 61000, conn_count := 1,
    board_name := "nrf52dk".data, soc_name := "nRF52832".data, free_heap := 1024 }

/-! ### Claim C2 -/

/-- C2: chunk-invariance of the command dispatcher. For every byte sequence
and every partition of it into consecutive chunks delivered as successive
`cmd_parser_process` calls, the sequence of dispatched command lines — and
the responses computed from them — equals that of delivering the whole
sequence in one call, from any starting buffer state. -/
theorem C2_chunk_invariance (env : Env) (buf : List Nat) (chunks : List (List Nat)) :
    processChunks buf chunks = cmdParserProcess buf chunks.flatten
    ∧ dispatchedResponses env (processChunks buf chunks).2
        = dispatchedResponses env (cmdParserProcess buf chunks.flatten).2 := by
  refine ⟨processChunks_eq_join chunks buf, ?_⟩
  rw [processChunks_eq_join]

/-! ### Claim C3 -/

/-- C3: the per-byte line-buffer state machine. A printable byte (0x20-0x7E)
is appended when fewer than CMD_MAX_LEN-1 bytes are buffered and dropped
otherwise; a newline or carriage return dispatches the buffer iff it is
non-empty and always resets it; a backspace (0x08/0x7F) removes the last byte
iff the cursor is positive; every other byte is ignored. The cursor never
exceeds CMD_MAX_LEN-1, no dispatched line exceeds CMD_MAX_LEN-1 bytes, and
feeding CMD_MAX_LEN+10 printable bytes then a terminator dispatches exactly
the first CMD_MAX_LEN-1 of them. -/
theorem C3_line_buffer_state_machine (c : Nat) (buf : List Nat)
    (hbuf : buf.length ≤ CMD_MAX_LEN - 1) :
    (32 ≤ c ∧ c ≤ 126 →
      parserStep buf c = ((if buf.length < CMD_MAX_LEN - 1 then buf ++ [c] else buf), none))
    ∧ ((c = 10 ∨ c = 13) →
      parserStep buf c = if 0 < buf.length then ([], some buf) else (buf, none))
    ∧ ((c = 8 ∨ c = 127) →
      parserStep buf c = ((if 0 < buf.length then buf.dropLast else buf), none))
    ∧ (¬(32 ≤ c ∧ c ≤ 126) → ¬(c = 10 ∨ c = 13) → ¬(c = 8 ∨ c = 127) →
      parserStep buf c = (buf, none))
    ∧ (parserStep buf c).1.length ≤ CMD_MAX_LEN - 1
    ∧ (∀ line, (parserStep buf c).2 = some line → line.length ≤ CMD_MAX_LEN - 1)
    ∧ (∀ pb : List Nat, (∀ b ∈ pb, 32 ≤ b ∧ b ≤ 126) → pb.length = CMD_MAX_LEN + 10 →
        cmdParserProcess [] (pb ++ [10]) = ([], [pb.take (CMD_MAX_LEN - 1)])
        ∧ (pb.take (CMD_MAX_LEN - 1)).length = CMD_MAX_LEN - 1) := by
  refine ⟨?_, ?_, ?_, ?_, parserStep_length_le buf c hbuf, ?_, ?_⟩
  · intro hc
    rw [parserStep, if_neg (by omega), if_pos hc]
    split <;> rfl
  · intro hc
    rw [parserStep, if_pos hc]
  · intro hc
    have h1 : ¬(c = 10 ∨ c = 13) := by omega
    have h2 : ¬(32 ≤ c ∧ c ≤ 126) := by omega
    rw [parserStep, if_neg h1, if_neg h2, if_pos hc]
    split <;> rfl
  · intro h2 h1 h3
    rw [parserStep, if_neg h1, if_neg h2, if_neg h3]
  · intro line hline
    rw [parserStep] at hline
    split at hline
    · split at hline <;> simp_all
    · split at hline
      · split at hline <;> simp_all
      · split at hline
        · split at hline <;> simp_all
        · simp_all
  · intro pb hpb hlen
    have htake : (pb.take (CMD_MAX_LEN - 1)).length = CMD_MAX_LEN - 1 := by
      rw [List.length_take]
      simp only [CMD_MAX_LEN] at hlen ⊢
      omega
    refine ⟨?_, htake⟩
    rw [cmdParserProcess_append, cmdParserProcess_printable pb [] hpb]
    have hstep : parserStep (pb.take (CMD_MAX_LEN - 1)) 10
        = ([], some (pb.take (CMD_MAX_LEN - 1))) := by
      rw [parserStep, if_pos (Or.inl rfl), if_pos (by rw [htake]; simp [CMD_MAX_LEN])]
    simp [cmdParserProcess, hstep]

/-- Witness for C3 at the printable byte 0x61 and a concrete overflow run. -/
theorem C3_line_buffer_state_machine_witness :
    parserStep [] 97 = ([97], none)
    ∧ cmdParserProcess [] (List.replicate (CMD_MAX_LEN + 10) 97 ++ [10])
        = ([], [List.replicate (CMD_MAX_LEN - 1) 97]) := by
  have h := C3_line_buffer_state_machine 97 [] (by simp)
  constructor
  · have h1 := h.1 (by omega)
    simpa [CMD_MAX_LEN] using h1
  · have h7 := (h.2.2.2.2.2.2 (List.replicate (CMD_MAX_LEN + 10) 97)
      (fun b hb => by rw [List.eq_of_mem_replicate hb]; omega)
      (by simp)).1
    rw [h7, List.take_replicate]
    norm_num [CMD_MAX_LEN]

/-! ### Helper lemmas for the dispatch claims -/

theorem dropWhile_cons_head_false {α : Type} (p : α → Bool) (l : List α) (d : α)
    (rest : List α) (h : l.dropWhile p = d :: rest) : p d = false := by
  induction l with
  | nil => simp at h
  | cons x xs ih =>
    rw [List.dropWhile_cons] at h
    split at h
    · exact ih h
    · rename_i hx
      obtain ⟨rfl, -⟩ := List.cons.inj h
      simpa using hx

theorem strtokFirst_some {l tok after : List Char}
    (h : strtokFirst l = some (tok, after)) :
    tok = (l.dropWhile isCmdDelim).takeWhile (fun c => !isCmdDelim c)
    ∧ after = (l.dropWhile isCmdDelim).dropWhile (fun c => !isCmdDelim c)
    ∧ (l.dropWhile isCmdDelim).isEmpty = false := by
  unfold strtokFirst at h
  by_cases he : (l.dropWhile isCmdDelim).isEmpty
  · simp [he] at h
  · simp only [he, Bool.false_eq_true, if_false, Option.some_inj, Prod.mk.injEq] at h
    exact ⟨h.1.symm, h.2.symm, by simpa using he⟩

theorem strtokFirst_tok_length {l tok after : List Char}
    (h : strtokFirst l = some (tok, after)) : tok.length ≤ l.length := by
  obtain ⟨htok, -, -⟩ := strtokFirst_some h
  calc tok.length ≤ (l.dropWhile isCmdDelim).length := by
        rw [htok]; exact (List.takeWhile_sublist _).length_le
    _ ≤ l.length := (List.dropWhile_sublist _).length_le

theorem decimalInt_length_le (i : Int) (hlo : -(2 ^ 31) ≤ i) (hhi : i < 2 ^ 31) :
    (decimalInt i).length ≤ 11 := by
  unfold decimalInt
  split
  · simp only [List.length_cons]
    have habs : i.natAbs < 10 ^ 10 := by
      have : i.natAbs ≤ 2 ^ 31 := by omega
      omega
    have := decimalNat_length_le i.natAbs 10 habs (by norm_num)
    omega
  · have htn : i.toNat < 10 ^ 10 := by
      have : i.toNat < 2 ^ 31 := by omega
      omega
    have := decimalNat_length_le i.toNat 10 htn (by norm_num)
    omega

/-! ### Claim C4 -/

/-- C4: for every dispatched line whose command token matches no entry of the
static table, the response is exactly
`"Unknown command: <token>\nType 'help' for available commands\n"` and the
return value is `-ENOENT`, an error that does not halt processing. -/
theorem C4_unknown_command (env : Env) (line tok after : List Char)
    (hlen : line.length ≤ CMD_MAX_LEN - 1)
    (htok : strtokFirst line = some (tok, after))
    (hmiss : tok ∉ commandInfo.map Prod.fst) :
    (execute_command env line CMD_RESPONSE_MAX_LEN).response
      = "Unknown command: ".data ++ tok ++ "\nType 'help' for available commands\n".data
    ∧ (execute_command env line CMD_RESPONSE_MAX_LEN).ret = -2
    ∧ (execute_command env line CMD_RESPONSE_MAX_LEN).ret ≠ 0 := by
  simp only [commandInfo, List.map_cons, List.map_nil, List.mem_cons, List.not_mem_nil,
    or_false, not_or] at hmiss
  obtain ⟨h1, h2, h3, h4, h5, h6, h7, h8, h9⟩ := hmiss
  have hexec : execute_command env line CMD_RESPONSE_MAX_LEN
      = ⟨snprintfStr CMD_RESPONSE_MAX_LEN
          ("Unknown command: ".data ++ tok ++ "\nType 'help' for available commands\n".data),
         -2, .noEffect⟩ := by
    unfold execute_command
    rw [htok]
    simp only [if_neg h1, if_neg h2, if_neg h3, if_neg h4, if_neg h5, if_neg h6, if_neg h7,
      if_neg h8, if_neg h9]
  rw [hexec]
  refine ⟨?_, rfl, by norm_num⟩
  apply snprintfStr_eq_self
  have htl : tok.length ≤ CMD_MAX_LEN - 1 := le_trans (strtokFirst_tok_length htok) hlen
  simp only [List.length_append, List.length_cons, List.length_nil,
    CMD_MAX_LEN, CMD_RESPONSE_MAX_LEN] at htl ⊢
  omega

/-- Witness for C4 at the line `"zz"`. -/
theorem C4_unknown_command_witness :
    (execute_command env0 ("zz".data) CMD_RESPONSE_MAX_LEN).response
      = "Unknown command: ".data ++ "zz".data ++ "\nType 'help' for available commands\n".data
    ∧ (execute_command env0 ("zz".data) CMD_RESPONSE_MAX_LEN).ret ≠ 0 := by
  have h := C4_unknown_command env0 ("zz".data) ("zz".data) [] (by decide) (by decide) (by decide)
  exact ⟨h.1, h.2.2⟩

/-! ### Claim C6 -/

/-- C6 counterexample: the temperature read can fail with the negative error
code `-ENODEV` (-19), yet the response reports `-19` as a measured
temperature and the handler returns success, because `cmd_temp` only treats
values below -100 as failures. -/
theorem C6_counterexample :
    ((-19 : Int) < 0)
    ∧ (cmd_temp { env0 with temperature := -19 } none CMD_RESPONSE_MAX_LEN).response
        = "Temperature: -19°C\n".data
    ∧ (cmd_temp { env0 with temperature := -19 } none CMD_RESPONSE_MAX_LEN).ret = 0 := by
  refine ⟨by norm_num, by decide, by decide⟩

/-- C6 amended: the `temp` handler reports the unavailable text (with the
error code embedded) exactly when the collaborator's value is below -100
(such as `-ENOTSUP` = -134), propagating that value as its return; any value
of -100 or above — including small negative error codes such as
`-ENODEV` = -19 — is formatted as a measured integer-Celsius temperature with
return 0. -/
theorem C6_temp_threshold (env : Env)
    (hlo : -(2 ^ 31) ≤ env.temperature) (hhi : env.temperature < 2 ^ 31) :
    (env.temperature < -100 →
      (cmd_temp env none CMD_RESPONSE_MAX_LEN).response
        = "Temperature unavailable (err ".data ++ decimalInt env.temperature ++ ")\n".data
      ∧ (cmd_temp env none CMD_RESPONSE_MAX_LEN).ret = env.temperature)
    ∧ (-100 ≤ env.temperature →
      (cmd_temp env none CMD_RESPONSE_MAX_LEN).response
        = "Temperature: ".data ++ decimalInt env.temperature ++ "°C\n".data
      ∧ (cmd_temp env none CMD_RESPONSE_MAX_LEN).ret = 0) := by
  have hd : (decimalInt env.temperature).length ≤ 11 := decimalInt_length_le _ hlo hhi
  constructor
  · intro hcold
    rw [cmd_temp, if_pos hcold]
    refine ⟨?_, rfl⟩
    apply snprintfStr_eq_self
    simp only [List.length_append, List.length_cons, List.length_nil, CMD_RESPONSE_MAX_LEN]
    omega
  · intro hwarm
    rw [cmd_temp, if_neg (by omega)]
    refine ⟨?_, rfl⟩
    apply snprintfStr_eq_self
    simp only [List.length_append, List.length_cons, List.length_nil, CMD_RESPONSE_MAX_LEN]
    omega

/-- Witness for C6 at the failing read `-ENOTSUP` (-134). -/
theorem C6_temp_threshold_witness :
    (cmd_temp { env0 with temperature := -134 } none CMD_RESPONSE_MAX_LEN).response
      = "Temperature unavailable (err ".data ++ decimalInt (-134) ++ ")\n".data
    ∧ (cmd_temp { env0 with temperature := -134 } none CMD_RESPONSE_MAX_LEN).ret = -134 :=
  (C6_temp_threshold { env0 with temperature := -134 }
    (by norm_num) (by norm_num)).1 (by norm_num)

/-! ### Claim C7 -/

/-- C7 counterexample: for the dispatched line `"echo  hi"` (two separating
spaces) the first strtok consumes only one of the two whitespace characters,
so the argument tail is `" hi"` — it retains part of the separating run — and
the echo response is `"Echo:  hi\n"`, not `"Echo: hi\n"` as full consumption
of the run would give. -/
theorem C7_counterexample :
    strtokFirst ("echo  hi".data) = some ("echo".data, "  hi".data)
    ∧ strtokRest ("  hi".data) = some (" hi".data)
    ∧ (execute_command env0 ("echo  hi".data) CMD_RESPONSE_MAX_LEN).response
        = "Echo:  hi\n".data
    ∧ "Echo:  hi\n".data ≠ "Echo: hi\n".data := by
  refine ⟨by decide, by decide, by decide, by decide⟩

/-- C7 amended: dispatch splits the completed line into a leading
whitespace run, a non-empty whitespace-free command token, and the remainder;
when a separator follows the token, exactly ONE whitespace character (the one
strtok overwrites with NUL) is consumed, and everything after it — including
any remaining whitespace of the run — is passed to the handler verbatim.
`echo` with no arguments answers `"Echo: (no arguments)\n"` and `"echo hi"`
answers `"Echo: hi\n"`. -/
theorem C7_dispatch_split (line tok after : List Char)
    (h : strtokFirst line = some (tok, after)) :
    (∃ lead, (∀ c ∈ lead, isCmdDelim c = true) ∧ line = lead ++ tok ++ after)
    ∧ tok ≠ []
    ∧ (∀ c ∈ tok, isCmdDelim c = false)
    ∧ (∀ d rest, after = d :: rest →
        isCmdDelim d = true
        ∧ strtokRest after = if rest.isEmpty then none else some rest)
    ∧ (∀ env, (execute_command env ("echo".data) CMD_RESPONSE_MAX_LEN).response
          = "Echo: (no arguments)\n".data
        ∧ (execute_command env ("echo hi".data) CMD_RESPONSE_MAX_LEN).response
          = "Echo: hi\n".data) := by
  obtain ⟨htok, hafter, hne⟩ := strtokFirst_some h
  have hrne : line.dropWhile isCmdDelim ≠ [] := by
    simpa [List.isEmpty_iff] using hne
  refine ⟨?_, ?_, ?_, ?_, ?_⟩
  · refine ⟨line.takeWhile isCmdDelim, fun c hc => List.mem_takeWhile_imp hc, ?_⟩
    subst htok hafter
    rw [List.append_assoc, List.takeWhile_append_dropWhile, List.takeWhile_append_dropWhile]
  · obtain ⟨x, xs, hx⟩ := List.exists_cons_of_ne_nil hrne
    have hhead : isCmdDelim x = false := by
      have := List.head_dropWhile_not isCmdDelim line hrne
      simpa [hx] using this
    rw [htok, hx, List.takeWhile_cons, hhead]
    simp
  · intro c hc
    rw [htok] at hc
    have := List.mem_takeWhile_imp hc
    simpa using this
  · intro d rest hdr
    constructor
    · have hcons : (line.dropWhile isCmdDelim).dropWhile (fun c => !isCmdDelim c)
          = d :: rest := by rw [← hafter, hdr]
      have := dropWhile_cons_head_false _ _ _ _ hcons
      simpa using this
    · rw [hdr, strtokRest]
  · intro env
    exact ⟨rfl, rfl⟩

/-- Witness for C7 at the line `"echo hi"`. -/
theorem C7_dispatch_split_witness :
    "echo".data ≠ ([] : List Char)
    ∧ (execute_command env0 ("echo hi".data) CMD_RESPONSE_MAX_LEN).response
        = "Echo: hi\n".data := by
  have h := C7_dispatch_split ("echo hi".data) ("echo".data) (" hi".data) (by decide)
  exact ⟨h.2.1, (h.2.2.2.2 env0).2⟩

/-! ### Claim C9 -/

/-- C9 counterexample: `"onion"` is none of `on`, `off`, `toggle`, yet
`cmd_led` accepts it and turns the LED on, because the C tests use
`strncmp` with the literal's length and therefore match by prefix. -/
theorem C9_counterexample :
    ("onion".data ≠ "on".data ∧ "onion".data ≠ "off".data ∧ "onion".data ≠ "toggle".data)
    ∧ cmd_led env0 (some ("onion".data)) CMD_RESPONSE_MAX_LEN
        = ⟨"LED turned on\n".data, 0, .ledSet true⟩ := by
  refine ⟨by decide, by decide⟩

/-- C9 amended: a missing or empty argument yields the usage text with
`-EINVAL`; an argument is accepted by PREFIX, checked in table order — first
2 characters `"on"`, else first 3 `"off"`, else first 6 `"toggle"` — with the
corresponding LED effect and confirmation text; anything else yields the
invalid-argument text with `-EINVAL` and no effect. -/
theorem C9_led_prefix_matching (env : Env) (a : List Char) (ha : a ≠ []) :
    cmd_led env none CMD_RESPONSE_MAX_LEN
      = ⟨"Usage: led <on|off|toggle>\n".data, -22, .noEffect⟩
    ∧ cmd_led env (some []) CMD_RESPONSE_MAX_LEN
      = ⟨"Usage: led <on|off|toggle>\n".data, -22, .noEffect⟩
    ∧ (a.take 2 = "on".data →
        cmd_led env (some a) CMD_RESPONSE_MAX_LEN
          = ⟨"LED turned on\n".data, 0, .ledSet true⟩)
    ∧ (a.take 2 ≠ "on".data → a.take 3 = "off".data →
        cmd_led env (some a) CMD_RESPONSE_MAX_LEN
          = ⟨"LED turned off\n".data, 0, .ledSet false⟩)
    ∧ (a.take 2 ≠ "on".data → a.take 3 ≠ "off".data → a.take 6 = "toggle".data →
        cmd_led env (some a) CMD_RESPONSE_MAX_LEN
          = ⟨"LED toggled\n".data, 0, .ledToggle⟩)
    ∧ (a.take 2 ≠ "on".data → a.take 3 ≠ "off".data → a.take 6 ≠ "toggle".data →
        cmd_led env (some a) CMD_RESPONSE_MAX_LEN
          = ⟨"Invalid LED command. Use: on, off, or toggle\n".data, -22, .noEffect⟩) := by
  have hlen0 : ¬ a.length = 0 := by simpa [List.length_eq_zero] using ha
  refine ⟨rfl, rfl, ?_, ?_, ?_, ?_⟩
  · intro h1
    unfold cmd_led
    simp only [if_neg hlen0, if_pos h1]
    rfl
  · intro h1 h2
    unfold cmd_led
    simp only [if_neg hlen0, if_neg h1, if_pos h2]
    rfl
  · intro h1 h2 h3
    unfold cmd_led
    simp only [if_neg hlen0, if_neg h1, if_neg h2, if_pos h3]
    rfl
  · intro h1 h2 h3
    unfold cmd_led
    simp only [if_neg hlen0, if_neg h1, if_neg h2, if_neg h3]
    rfl

/-- Witness for C9 at the argument `"toggle"`. -/
theorem C9_led_prefix_matching_witness :
    cmd_led env0 (some ("toggle".data)) CMD_RESPONSE_MAX_LEN
      = ⟨"LED toggled\n".data, 0, .ledToggle⟩ :=
  (C9_led_prefix_matching env0 ("toggle".data) (by decide)).2.2.2.2.1
    (by decide) (by decide) (by decide)

/-! ### BLE connection module (ble_init.c)

The abstract connection handles are `Nat` (non-NULL `struct bt_conn *`);
a slot holds `none` for NULL. `CONFIG_BT_MAX_CONN` is the length of the
slot list. `bt_le_adv_start` and `bt_nus_send` are external stack calls;
their return values are passed in as oracle arguments. -/

/-- enum ble_connection_state. -/
inductive BleConnState
  | disconnected
  | connected
  | advertising
deriving DecidableEq, Repr

/-- Mutable module state of ble_init.c: the ble_initialized flag (`inited`),
    current_state, current_connections and the uint8_t connection_count. -/
structure BleCtx where
  inited : Bool
  state : BleConnState
  conns : List (Option Nat)
  count : Nat
deriving DecidableEq, Repr

/-- Store loop of connected_callback (lines 131-137): put `c` into the first
    NULL slot; the Bool reports whether a slot was found (and hence whether
    the count was incremented). -/
def storeFirstFree : List (Option Nat) → Nat → List (Option Nat) × Bool
  | [], _ => ([], false)
  | none :: rest, c => (some c :: rest, true)
  | some x :: rest, c =>
    let r := storeFirstFree rest c
    (some x :: r.1, r.2)

/-- Removal loop of disconnected_callback (lines 158-165): clear the first
    slot holding `c`; the Bool reports whether a match was found. -/
def removeConn : List (Option Nat) → Nat → List (Option Nat) × Bool
  | [], _ => ([], false)
  | none :: rest, c =>
    let r := removeConn rest c
    (none :: r.1, r.2)
  | some x :: rest, c =>
    if x = c then (none :: rest, true)
    else
      let r := removeConn rest c
      (some x :: r.1, r.2)

/-- Number of occupied (non-NULL) slots. -/
def countOccupied (l : List (Option Nat)) : Nat := (l.filter Option.isSome).length

/-- ble_get_connection_count. -/
def ble_get_connection_count (ctx : BleCtx) : Nat := ctx.count

/-- Result of ble_advertising_start: the new state, the return value, and
    whether the bt_le_adv_start stack call was reached. -/
structure AdvStartOut where
  ctx : BleCtx
  ret : Int
  attempted : Bool
deriving DecidableEq, Repr

/-- ble_advertising_start (ble_init.c lines 305-330); `advRet` is what
    bt_le_adv_start returns. -/
def ble_advertising_start (ctx : BleCtx) (advRet : Int) : AdvStartOut :=
  if ctx.inited = false then ⟨ctx, -13, false⟩
  else if advRet ≠ 0 then ⟨ctx, advRet, true⟩
  else ⟨(if ctx.count = 0 then { ctx with state := .advertising } else ctx), 0, true⟩

/-- Result of connected_callback: the new module state and whether the user
    `connected` callback slot (when registered) was invoked. -/
structure ConnCbOut where
  ctx : BleCtx
  invokedConnected : Bool
deriving DecidableEq, Repr

/-- connected_callback (ble_init.c lines 118-145): an error event returns
    early; otherwise the handle is stored (count incremented only when a free
    slot took it), the state set to Connected, and the user callback invoked
    unconditionally. -/
def connected_callback (ctx : BleCtx) (conn : Nat) (err : Nat) : ConnCbOut :=
  if err ≠ 0 then ⟨ctx, false⟩
  else
    let sf := storeFirstFree ctx.conns conn
    ⟨{ ctx with conns := sf.1,
                count := if sf.2 then (ctx.count + 1) % 256 else ctx.count,
                state := .connected },
     true⟩

/-- Result of disconnected_callback: new state, how many advertising restarts
    were attempted, and whether the user `disconnected` callback ran. -/
structure DiscCbOut where
  ctx : BleCtx
  advAttempts : Nat
  invokedDisconnected : Bool
deriving DecidableEq, Repr

/-- disconnected_callback (ble_init.c lines 150-182): remove the handle
    (count decremented only on a match), and when the count reaches zero set
    Disconnected and call ble_advertising_start once, a failure being only
    logged; the user callback runs at the end in every case. -/
def disconnected_callback (ctx : BleCtx) (conn : Nat) (advRet : Int) : DiscCbOut :=
  let rc := removeConn ctx.conns conn
  let count1 := if rc.2 then (ctx.count + 255) % 256 else ctx.count
  let ctx1 : BleCtx := { ctx with conns := rc.1, count := count1 }
  if count1 = 0 then
    ⟨(ble_advertising_start { ctx1 with state := .disconnected } advRet).ctx, 1, true⟩
  else
    ⟨ctx1, 0, true⟩

/-- One transport-originated connection event; a disconnect carries the
    result the stack will give the advertising restart. -/
inductive BleEvent
  | connectEv (conn : Nat) (err : Nat)
  | disconnectEv (conn : Nat) (reason : Nat) (advRet : Int)
deriving DecidableEq, Repr

/-- Deliver one event; besides the state, count how often the `connected`
    and the `disconnected` user callbacks were invoked. -/
def bleStep (ctx : BleCtx) : BleEvent → BleCtx × Nat × Nat
  | .connectEv c e =>
    let r := connected_callback ctx c e
    (r.ctx, (if r.invokedConnected then 1 else 0), 0)
  | .disconnectEv c _ a =>
    let r := disconnected_callback ctx c a
    (r.ctx, 0, (if r.invokedDisconnected then 1 else 0))

/-- Deliver a sequence of events, accumulating the invocation counts. -/
def bleRun (ctx : BleCtx) : List BleEvent → BleCtx × Nat × Nat
  | [] => (ctx, 0, 0)
  | e :: rest =>
    let s := bleStep ctx e
    let r := bleRun s.1 rest
    (r.1, s.2.1 + r.2.1, s.2.2 + r.2.2)

/-! ### Registry bookkeeping lemmas -/

theorem storeFirstFree_length (l : List (Option Nat)) (c : Nat) :
    (storeFirstFree l c).1.length = l.length := by
  induction l with
  | nil => rfl
  | cons o rest ih => cases o <;> simp [storeFirstFree, ih]

theorem removeConn_length (l : List (Option Nat)) (c : Nat) :
    (removeConn l c).1.length = l.length := by
  induction l with
  | nil => rfl
  | cons o rest ih =>
    cases o with
    | none => simp [removeConn, ih]
    | some x =>
      rw [removeConn]
      split <;> simp [ih]

theorem storeFirstFree_spec (l : List (Option Nat)) (c : Nat) :
    ((storeFirstFree l c).2 = true →
      countOccupied (storeFirstFree l c).1 = countOccupied l + 1)
    ∧ ((storeFirstFree l c).2 = false → (storeFirstFree l c).1 = l) := by
  induction l with
  | nil => exact ⟨by simp [storeFirstFree], fun _ => rfl⟩
  | cons o rest ih =>
    cases o with
    | none => exact ⟨fun _ => by simp [storeFirstFree, countOccupied], by simp [storeFirstFree]⟩
    | some x =>
      refine ⟨fun hs => ?_, fun hs => ?_⟩
      · have := ih.1 (by simpa [storeFirstFree] using hs)
        simp only [storeFirstFree, countOccupied, List.filter_cons] at this ⊢
        simp [this]
      · have := ih.2 (by simpa [storeFirstFree] using hs)
        simp [storeFirstFree, this]

theorem removeConn_spec (l : List (Option Nat)) (c : Nat) :
    ((removeConn l c).2 = true →
      countOccupied (removeConn l c).1 + 1 = countOccupied l)
    ∧ ((removeConn l c).2 = false → (removeConn l c).1 = l) := by
  induction l with
  | nil => exact ⟨by simp [removeConn], fun _ => rfl⟩
  | cons o rest ih =>
    cases o with
    | none =>
      refine ⟨fun hs => ?_, fun hs => ?_⟩
      · have := ih.1 (by simpa [removeConn] using hs)
        simp only [removeConn, countOccupied, List.filter_cons] at this ⊢
        simpa using this
      · have := ih.2 (by simpa [removeConn] using hs)
        simp [removeConn, this]
    | some x =>
      by_cases hx : x = c
      · refine ⟨fun _ => ?_, fun hs => ?_⟩
        · simp [removeConn, hx, countOccupied, List.filter_cons]
        · simp [removeConn, hx] at hs
      · refine ⟨fun hs => ?_, fun hs => ?_⟩
        · have := ih.1 (by simpa [removeConn, hx] using hs)
          simp only [removeConn, hx, if_neg, countOccupied, List.filter_cons] at this ⊢
          simp [this]
        · have := ih.2 (by simpa [removeConn, hx] using hs)
          simp [removeConn, hx, this]

theorem countOccupied_le_length (l : List (Option Nat)) :
    countOccupied l ≤ l.length :=
  List.length_filter_le _ l

/-! ### Claim C1 -/

/-- C1 counterexample: with the single peer 7 already stored and the state
Connected, delivering the identical connect event again invokes the
`connected` entry callback a second time — it is not suppressed. -/
theorem C1_counterexample :
    ((connected_callback ⟨true, .advertising, [none], 0⟩ 7 0).ctx.state
        = BleConnState.connected)
    ∧ (connected_callback
        (connected_callback ⟨true, .advertising, [none], 0⟩ 7 0).ctx 7 0).invokedConnected
        = true := by
  refine ⟨by decide, by decide⟩

/-- C1 amended: every successful connect event (err = 0) invokes the
`connected` callback unconditionally — so a duplicate connect while already
Connected re-invokes it (the `disconnected` callback stays silent) — and the
Advertising→Connected→Disconnected round trip of the only peer invokes the
`connected` and the `disconnected` callback exactly once each, ending in
Advertising when the restart succeeds and in Disconnected when it fails. -/
theorem C1_callback_invocations (ctx : BleCtx) (c r : Nat) (advRet : Int)
    (rest : List (Option Nat))
    (h1 : ctx.conns = none :: rest) (h2 : ctx.count = 0) (h3 : ctx.inited = true) :
    (∀ ctx2 c2, (connected_callback ctx2 c2 0).invokedConnected = true)
    ∧ (bleRun ctx [.connectEv c 0, .disconnectEv c r advRet]).2 = (1, 1)
    ∧ (bleRun ctx [.connectEv c 0, .disconnectEv c r advRet]).1.state
        = (if advRet = 0 then BleConnState.advertising else BleConnState.disconnected) := by
  have hconn : connected_callback ctx c 0
      = ⟨{ ctx with conns := some c :: rest, count := 1, state := .connected }, true⟩ := by
    rw [connected_callback, if_neg (by omega)]
    simp [h1, storeFirstFree, h2]
  have hrm : removeConn (some c :: rest) c = (none :: rest, true) := by
    rw [removeConn, if_pos rfl]
  have hdisc : disconnected_callback
      { ctx with conns := some c :: rest, count := 1, state := BleConnState.connected } c advRet
      = ⟨(ble_advertising_start
            { ctx with conns := none :: rest, count := 0, state := .disconnected } advRet).ctx,
         1, true⟩ := by
    rw [disconnected_callback]
    simp [hrm]
  refine ⟨fun ctx2 c2 => by rw [connected_callback, if_neg (by omega)], ?_, ?_⟩
  · simp [bleRun, bleStep, hconn, hdisc]
  · simp only [bleRun, bleStep, hconn, hdisc]
    rw [ble_advertising_start]
    simp only [h3]
    by_cases ha : advRet = 0
    · simp [ha]
    · simp [ha]

/-- Witness for C1 on a one-slot registry with peer 7 and a successful
advertising restart. -/
theorem C1_callback_invocations_witness :
    (bleRun ⟨true, .advertising, [none], 0⟩
        [.connectEv 7 0, .disconnectEv 7 19 0]).2 = (1, 1)
    ∧ (bleRun ⟨true, .advertising, [none], 0⟩
        [.connectEv 7 0, .disconnectEv 7 19 0]).1.state = BleConnState.advertising := by
  have h := C1_callback_invocations ⟨true, .advertising, [none], 0⟩ 7 19 0 []
    rfl rfl rfl
  exact ⟨h.2.1, by simpa using h.2.2⟩

/-! ### Claim C5 -/

/-- Per-message payload capacity of the notify transport (the spec's nominal
    ~120 bytes left by the ATT header at the configured MTU). -/
def NUS_CAPACITY : Nat := 120

/-- What ble_nus_send hands to the underlying bt_nus_send notify primitive. -/
inductive NusSubmit
  | noSubmit
  | submit (len : Nat)
deriving DecidableEq, Repr

/-- Result of ble_nus_send: the single submission made to bt_nus_send (if
    any) and the returned code. -/
structure NusSendOut where
  submission : NusSubmit
  ret : Int
deriving DecidableEq, Repr

/-- ble_nus_send (ble_init.c lines 355-368): the initialized / NUS-enabled
    guards, then one bt_nus_send call with the caller's buffer and length;
    `btRet` is what the stack call returns. -/
def ble_nus_send (inited nusEnabled : Bool) (len : Nat) (btRet : Int) : NusSendOut :=
  if inited = false then ⟨.noSubmit, -13⟩
  else if nusEnabled = false then ⟨.noSubmit, -134⟩
  else ⟨.submit len, btRet⟩

/-- C5 counterexample: a 300-byte payload — far beyond the ~120-byte
per-message capacity — is submitted to the underlying notify primitive as a
single 300-byte message with a success return: the send neither fails nor
splits the payload. -/
theorem C5_counterexample :
    (ble_nus_send true true 300 0).submission = NusSubmit.submit 300
    ∧ (ble_nus_send true true 300 0).ret = 0
    ∧ NUS_CAPACITY < 300 := by
  refine ⟨by decide, by decide, by decide⟩

/-- C5 amended: ble_nus_send enforces no capacity bound. Once the module is
initialized and NUS is enabled, the payload is handed to bt_nus_send
unmodified — whatever its length — with the stack's return passed through;
capacity enforcement is left entirely to the underlying service. -/
theorem C5_no_capacity_check (inited nusEnabled : Bool) (len : Nat) (btRet : Int)
    (h1 : inited = true) (h2 : nusEnabled = true) :
    ble_nus_send inited nusEnabled len btRet = ⟨.submit len, btRet⟩ := by
  subst h1 h2
  rfl

/-- Witness for C5 at the over-capacity length 300. -/
theorem C5_no_capacity_check_witness :
    ble_nus_send true true 300 0 = ⟨NusSubmit.submit 300, 0⟩ :=
  C5_no_capacity_check true true 300 0 rfl rfl

/-! ### Claim C8 -/

/-- C8: disconnect transitions follow the defined edges. When the removed
handle was the last occupant, the state passes through Disconnected, exactly
one advertising restart is attempted, and the final state is Advertising on
restart success and remains Disconnected on failure (no retry); when at
least one peer remains stored, the state is untouched and no restart is
attempted. -/
theorem C8_disconnect_transitions (ctx : BleCtx) (conn : Nat) (advRet : Int)
    (hinit : ctx.inited = true)
    (hinv : ctx.count = countOccupied ctx.conns)
    (hlen : ctx.conns.length ≤ 255) :
    ((removeConn ctx.conns conn).2 = true →
      countOccupied (removeConn ctx.conns conn).1 = 0 →
        (disconnected_callback ctx conn advRet).advAttempts = 1
        ∧ (disconnected_callback ctx conn advRet).ctx.state
            = (if advRet = 0 then BleConnState.advertising else BleConnState.disconnected))
    ∧ ((removeConn ctx.conns conn).2 = true →
      0 < countOccupied (removeConn ctx.conns conn).1 →
        (disconnected_callback ctx conn advRet).advAttempts = 0
        ∧ (disconnected_callback ctx conn advRet).ctx.state = ctx.state) := by
  have hocc : countOccupied ctx.conns ≤ 255 :=
    le_trans (countOccupied_le_length _) hlen
  constructor
  · intro hrm hzero
    have hstep := (removeConn_spec ctx.conns conn).1 hrm
    have hcnt : (ctx.count + 255) % 256 = 0 := by
      rw [hinv]
      omega
    rw [disconnected_callback]
    by_cases ha : advRet = 0
    · simp [hrm, hcnt, ble_advertising_start, hinit, ha]
    · simp [hrm, hcnt, ble_advertising_start, hinit, ha]
  · intro hrm hpos
    have hstep := (removeConn_spec ctx.conns conn).1 hrm
    have hcnt : (ctx.count + 255) % 256 = countOccupied (removeConn ctx.conns conn).1 := by
      rw [hinv]
      omega
    have hne : ¬ ((ctx.count + 255) % 256 = 0) := by omega
    rw [disconnected_callback]
    simp [hrm, hne]

/-- Witness for C8: the only stored peer 7 disconnects and the restart
succeeds. -/
theorem C8_disconnect_transitions_witness :
    (disconnected_callback ⟨true, .connected, [some 7], 1⟩ 7 0).advAttempts = 1
    ∧ (disconnected_callback ⟨true, .connected, [some 7], 1⟩ 7 0).ctx.state
        = BleConnState.advertising := by
  have h := (C8_disconnect_transitions ⟨true, .connected, [some 7], 1⟩ 7 0
    rfl (by decide) (by decide)).1 (by decide) (by decide)
  exact ⟨h.1, by simpa using h.2⟩

/-! ### Claim C10 -/

/-- C10: registry consistency. If ble_get_connection_count equals the number
of occupied slots before an event, it still does after either callback; the
connect path increments the count exactly when a free slot actually stored
the handle (an error event changes nothing), and the disconnect path
decrements it exactly when a stored entry was actually removed. -/
theorem C10_registry_consistency (ctx : BleCtx) (c e c2 : Nat) (advRet : Int)
    (hinv : ble_get_connection_count ctx = countOccupied ctx.conns)
    (hlen : ctx.conns.length ≤ 255) :
    (ble_get_connection_count (connected_callback ctx c e).ctx
        = countOccupied (connected_callback ctx c e).ctx.conns)
    ∧ (ble_get_connection_count (disconnected_callback ctx c2 advRet).ctx
        = countOccupied (disconnected_callback ctx c2 advRet).ctx.conns)
    ∧ (e = 0 → (storeFirstFree ctx.conns c).2 = true →
        (connected_callback ctx c e).ctx.count = ctx.count + 1)
    ∧ (e = 0 → (storeFirstFree ctx.conns c).2 = false →
        (connected_callback ctx c e).ctx.count = ctx.count)
    ∧ ((removeConn ctx.conns c2).2 = true →
        (disconnected_callback ctx c2 advRet).ctx.count + 1 = ctx.count)
    ∧ ((removeConn ctx.conns c2).2 = false →
        (disconnected_callback ctx c2 advRet).ctx.count = ctx.count) := by
  rw [ble_get_connection_count] at hinv
  have hocc : countOccupied ctx.conns ≤ 255 :=
    le_trans (countOccupied_le_length _) hlen
  have hstore : (storeFirstFree ctx.conns c).2 = true →
      (ctx.count + 1) % 256 = ctx.count + 1 := by
    intro hs
    have h1 := (storeFirstFree_spec ctx.conns c).1 hs
    have h2 : countOccupied (storeFirstFree ctx.conns c).1
        ≤ (storeFirstFree ctx.conns c).1.length := countOccupied_le_length _
    rw [storeFirstFree_length] at h2
    omega
  have hremove : (removeConn ctx.conns c2).2 = true →
      (ctx.count + 255) % 256 = countOccupied (removeConn ctx.conns c2).1 := by
    intro hr
    have h1 := (removeConn_spec ctx.conns c2).1 hr
    omega
  have hconn : ∀ he : ¬ e ≠ 0, (connected_callback ctx c e).ctx
      = { ctx with conns := (storeFirstFree ctx.conns c).1,
                   count := if (storeFirstFree ctx.conns c).2 then (ctx.count + 1) % 256
                            else ctx.count,
                   state := .connected } := by
    intro he
    rw [connected_callback, if_neg he]
  have hadv : ∀ (ctx2 : BleCtx) (a : Int),
      (ble_advertising_start ctx2 a).ctx.count = ctx2.count
      ∧ (ble_advertising_start ctx2 a).ctx.conns = ctx2.conns := by
    intro ctx2 a
    rw [ble_advertising_start]
    split
    · exact ⟨rfl, rfl⟩
    · split
      · exact ⟨rfl, rfl⟩
      · split <;> exact ⟨rfl, rfl⟩
  have hdiscCount : (disconnected_callback ctx c2 advRet).ctx.count
        = (if (removeConn ctx.conns c2).2 then (ctx.count + 255) % 256 else ctx.count)
      ∧ (disconnected_callback ctx c2 advRet).ctx.conns = (removeConn ctx.conns c2).1 := by
    rw [disconnected_callback]
    split <;> split
    all_goals
      first
        | exact ⟨(hadv _ _).1, (hadv _ _).2⟩
        | exact ⟨rfl, rfl⟩
  refine ⟨?_, ?_, ?_, ?_, ?_, ?_⟩
  · by_cases he : e ≠ 0
    · rw [connected_callback, if_pos he]
      exact hinv
    · rw [ble_get_connection_count, hconn he]
      by_cases hs : (storeFirstFree ctx.conns c).2
      · have h1 := (storeFirstFree_spec ctx.conns c).1 hs
        simp only [hs, if_true]
        rw [hstore hs, h1, hinv]
      · have h1 := (storeFirstFree_spec ctx.conns c).2 (by simpa using hs)
        simp only [hs, if_false]
        rw [h1, hinv]
        simp
  · rw [ble_get_connection_count, hdiscCount.1, hdiscCount.2]
    by_cases hr : (removeConn ctx.conns c2).2
    · simp only [hr, if_true]
      exact hremove hr
    · have h1 := (removeConn_spec ctx.conns c2).2 (by simpa using hr)
      simp only [hr, if_false]
      rw [h1, hinv]
      simp
  · intro he hs
    rw [hconn (by omega)]
    simp only [hs, if_true]
    exact hstore hs
  · intro he hs
    rw [hconn (by omega)]
    simp [hs]
  · intro hr
    have h1 := (removeConn_spec ctx.conns c2).1 hr
    rw [hdiscCount.1]
    simp only [hr, if_true]
    rw [hremove hr]
    omega
  · intro hr
    rw [hdiscCount.1]
    simp [hr]

/-- Witness for C10 on a two-slot registry holding peer 5, connecting peer 7
and disconnecting peer 5. -/
theorem C10_registry_consistency_witness :
    (connected_callback ⟨true, .connected, [some 5, none], 1⟩ 7 0).ctx.count = 2
    ∧ (disconnected_callback ⟨true, .connected, [some 5, none], 1⟩ 5 0).ctx.count + 1 = 1 := by
  have h := C10_registry_consistency ⟨true, .connected, [some 5, none], 1⟩ 7 0 5 0
    (by decide) (by decide)
  exact ⟨h.2.2.1 rfl (by decide), h.2.2.2.2.1 (by decide)⟩

end NrfUtils
